import Mathlib

/-!
Shallow embedding of the vocabulary spaced-repetition program
(`A word.py`): the SM-2 style memory algorithm (`MemoryAlgorithm`),
the word-list loading/saving layer (`WordListManager.load_wordlist`,
`WordListManager.save_wordlist`, `VocabularyApp._load_all`) and the
next-item selection and answer logic (`VocabularyApp.get_word`,
`VocabularyApp.answer`).

Modelling conventions:
- Python floats are modelled as exact rationals `ℚ`; Python ints as `ℤ`.
- JSON values (what `json.load` can return) are the inductive `JVal`.
- A raised, uncaught Python exception is modelled by an `Option`-valued
  function returning `none`.
- The in-memory per-word dict is the structure `WordRec`; the two keys
  that only exist transiently during a session (`is_new`, `learn_date`)
  are `Option` fields, `none` meaning the key is absent.
- File I/O is abstracted: a word-list file is its list of lines, the
  JSON cache file is a `CacheFile` (absent, syntactically invalid JSON,
  or a parsed `JVal`), and the persisted artifact produced by
  `json.dump` is modelled at the level of the parsed JSON value
  (Python's JSON round trip of strings, ints and floats is exact, via
  shortest-repr float printing).
-/

/-- A JSON value, as returned by Python's `json.load`. -/
inductive JVal where
  | str (s : String)
  | int (n : ℤ)
  | num (q : ℚ)
  | bool (b : Bool)
  | null
  | arr (xs : List JVal)
  | obj (fields : List (String × JVal))

/-- In-memory per-word dict of the app. The first six fields are the
ones `save_wordlist` persists; `is_new` and `learn_date` model the keys
of the same name that `get_word` attaches to a provisional new word
(`none` = key absent). `word` and `translation` are `JVal` because
`load_wordlist` stores `w[0]`/`w[1]` from the cache without conversion. -/
structure WordRec where
  word : JVal
  translation : JVal
  ef : ℚ
  n : ℤ
  interval : ℚ
  last_review : ℤ
  is_new : Option Bool := none
  learn_date : Option String := none

/-- An element of `VocabularyApp._all_words` (built by `_load_all`). -/
structure Entry where
  word : String
  translation : String
  is_learned : Bool
  deriving DecidableEq

/-- Python `str.strip()` on both ends (ASCII whitespace approximation of
Python's unicode whitespace; the program's data uses ASCII whitespace). -/
def pyStrip (s : String) : String :=
  String.mk (((s.data.dropWhile Char.isWhitespace).reverse.dropWhile Char.isWhitespace).reverse)

/-- The stripped non-empty lines of the word-list file:
`raw = [ln.strip() for ln in f if ln.strip()]` in `load_wordlist`,
and the identical list comprehension in `_load_all`. -/
def wordlistLines (raw : List String) : List String :=
  (raw.map pyStrip).filter (fun l => l ≠ "")

/-- `total = len(raw)` in `load_wordlist`. -/
def load_total (raw : List String) : ℕ :=
  (wordlistLines raw).length

/-- Python `ln.split('\t')` on the character list: split at every tab,
keeping empty pieces. -/
def splitTabsChars : List Char → List (List Char)
  | [] => [[]]
  | c :: cs =>
    match splitTabsChars cs with
    | [] => [[]]
    | h :: t => if c = '\t' then [] :: h :: t else (c :: h) :: t

/-- Python `s.split(maxsplit=1)` (whitespace separator): skip leading
whitespace; if nothing remains, the empty list; otherwise the first
whitespace-free token, and — if anything other than whitespace follows —
the remainder starting at its first non-whitespace character. -/
def pySplit1 (s : String) : List String :=
  let cs := s.data.dropWhile Char.isWhitespace
  if cs.isEmpty then []
  else
    let tok := cs.takeWhile (fun c => !c.isWhitespace)
    let rest := (cs.dropWhile (fun c => !c.isWhitespace)).dropWhile Char.isWhitespace
    if rest.isEmpty then [String.mk tok] else [String.mk tok, String.mk rest]

/-- `ln.split('\t') if '\t' in ln else ln.split(maxsplit=1)` in `_load_all`. -/
def splitFields (s : String) : List String :=
  if s.data.any (fun c => c = '\t') then (splitTabsChars s.data).map String.mk
  else pySplit1 s

/-- The `_all_words` list built by `_load_all` before the learned flags
are set: one entry per stripped non-empty line that splits into exactly
two fields, in file order; any other field count is skipped. -/
def allEntriesOf (raw : List String) : List Entry :=
  (wordlistLines raw).filterMap (fun ln =>
    match splitFields ln with
    | [a, b] => some ⟨a, b, false⟩
    | _ => none)

/-- `_load_all`: build the entries and mark `is_learned` by membership
of the entry's word in `{w['word'] for w in self.words}`. A Python
string only ever equals another string, so a non-string `word` loaded
from a cache never matches. -/
def loadAll (raw : List String) (ws : List WordRec) : List Entry :=
  (allEntriesOf raw).map (fun a =>
    { a with is_learned := ws.any (fun w =>
        match w.word with
        | .str s => s == a.word
        | _ => false) })

/-- Value of a digit string (digits only). -/
def digitsToNat (cs : List Char) : ℕ :=
  cs.foldl (fun a c => a * 10 + (c.toNat - 48)) 0

/-- Python `float(s)` on a string: strip, optional sign, then either
digits, or digits with a decimal point (at least one digit overall).
Exponent, `inf`/`nan` and underscore forms are not modelled (they do
not occur in the program's data). `none` models the raised `ValueError`. -/
def pyStrFloat (s : String) : Option ℚ :=
  let cs := (pyStrip s).data
  let sc : ℚ × List Char :=
    match cs with
    | '-' :: t => (-1, t)
    | '+' :: t => (1, t)
    | _ => (1, cs)
  let ip := sc.2.takeWhile Char.isDigit
  let rest := sc.2.drop ip.length
  match rest with
  | [] => if ip.isEmpty then none else some (sc.1 * digitsToNat ip)
  | '.' :: fp =>
    if fp.all Char.isDigit && !(ip.isEmpty && fp.isEmpty) then
      some (sc.1 * ((digitsToNat ip : ℚ) + (digitsToNat fp : ℚ) / (10 ^ fp.length)))
    else none
  | _ => none

/-- Python `int(s)` on a string: strip, optional sign, digits only.
`none` models the raised `ValueError` (so `int("3.5")` fails). -/
def pyStrInt (s : String) : Option ℤ :=
  let cs := (pyStrip s).data
  let sc : ℤ × List Char :=
    match cs with
    | '-' :: t => (-1, t)
    | '+' :: t => (1, t)
    | _ => (1, cs)
  if sc.2.isEmpty || !sc.2.all Char.isDigit then none
  else some (sc.1 * digitsToNat sc.2)

/-- Python `int(float)`: truncation toward zero. -/
def pytrunc (q : ℚ) : ℤ :=
  Int.tdiv q.num q.den

/-- Python `float(x)` on a JSON value; `none` models the raised
`TypeError`/`ValueError`. -/
def pyFloat : JVal → Option ℚ
  | .num q => some q
  | .int n => some n
  | .bool b => some (if b then 1 else 0)
  | .str s => pyStrFloat s
  | _ => none

/-- Python `int(x)` on a JSON value; `none` models the raised
`TypeError`/`ValueError`. -/
def pyInt : JVal → Option ℤ
  | .int n => some n
  | .num q => some (pytrunc q)
  | .bool b => some (if b then 1 else 0)
  | .str s => pyStrInt s
  | _ => none

/-- Python `v[i]` for a non-negative literal index: defined for JSON
arrays and strings (a string indexes to its one-character strings);
anything else raises `TypeError`/`KeyError`, modelled by `none`. -/
def pyIndex : JVal → ℕ → Option JVal
  | .arr xs, i => xs.get? i
  | .str s, i => (s.data.get? i).map (fun c => .str (String.mk [c]))
  | _, _ => none

/-- Python iteration over a JSON value: arrays yield elements, strings
yield one-character strings, dicts yield their keys; numbers, booleans
and `null` raise `TypeError`, modelled by `none`. -/
def pySeq : JVal → Option (List JVal)
  | .arr xs => some xs
  | .str s => some (s.data.map (fun c => .str (String.mk [c])))
  | .obj fields => some (fields.map (fun kv => .str kv.1))
  | _ => none

/-- Python `dict.get` on a parsed JSON object (with duplicate keys the
last occurrence wins, as in `json.load`). -/
def jsonGet (fields : List (String × JVal)) (k : String) : Option JVal :=
  fields.foldl (fun acc kv => if kv.1 == k then some kv.2 else acc) none

/-- One element of the `learned` list comprehension in `load_wordlist`:
`{"word": w[0], "translation": w[1], "ef": float(w[2]), "n": int(w[3]),
"interval": float(w[4]), "last_review": int(w[5])}`. `none` models any
exception raised while building it. -/
def parseRow (w : JVal) : Option WordRec :=
  match pyIndex w 0, pyIndex w 1, pyIndex w 2, pyIndex w 3, pyIndex w 4, pyIndex w 5 with
  | some w0, some w1, some w2, some w3, some w4, some w5 =>
    match pyFloat w2, pyInt w3, pyFloat w4, pyInt w5 with
    | some ef, some n, some itv, some lr => some ⟨w0, w1, ef, n, itv, lr, none, none⟩
    | _, _, _, _ => none
  | _, _, _, _, _, _ => none

/-- The whole `learned` list comprehension over the rows of the cache;
the first exception aborts the comprehension (`none`). -/
def parseRows : List JVal → Option (List WordRec)
  | [] => some []
  | r :: rs =>
    match parseRow r with
    | none => none
    | some w =>
      match parseRows rs with
      | none => none
      | some t => some (w :: t)

/-- The body of the `try` block of `load_wordlist` applied to the parsed
cache JSON: `data = json.load(f).get("WORDLIST", [])` followed by the
list comprehension. `none` models any exception caught by the bare
`except` (`.get` on a non-dict, iterating a non-iterable, indexing or
conversion failures). -/
def parseLearned (v : JVal) : Option (List WordRec) :=
  match v with
  | .obj fields =>
    let data := (jsonGet fields "WORDLIST").getD (.arr [])
    match pySeq data with
    | none => none
    | some rows => parseRows rows
  | _ => none

/-- State of the JSON cache file next to the word list: missing,
present but not syntactically valid JSON, or parsed to a JSON value. -/
inductive CacheFile where
  | absent
  | invalid
  | parsed (v : JVal)

/-- The cache "fails": it is absent, is invalid JSON (so `json.load`
raises), or its parsed value makes the `try` block raise. -/
def cacheFails : CacheFile → Prop
  | .absent => True
  | .invalid => True
  | .parsed v => parseLearned v = none

/-- `WordListManager.load_wordlist`: `total` is the number of stripped
non-empty lines of the word-list file; `learned` comes from the cache
when it exists and its whole `try` block succeeds, and is `[]` otherwise. -/
def load_wordlist (raw : List String) (cache : CacheFile) : List WordRec × ℕ :=
  let total := load_total raw
  let learned :=
    match cache with
    | .absent => []
    | .invalid => []
    | .parsed v => (parseLearned v).getD []
  (learned, total)

/-- One persisted row of `save_wordlist`:
`[w["word"], w["translation"], w["ef"], w["n"], w["interval"], w["last_review"]]`. -/
def rowOf (w : WordRec) : JVal :=
  .arr [w.word, w.translation, .num w.ef, .int w.n, .num w.interval, .int w.last_review]

/-- The JSON value `save_wordlist` serializes:
`{"WORDLIST": [[...six fields...] for w in words]}`. -/
def saveArtifact (ws : List WordRec) : JVal :=
  .obj [("WORDLIST", .arr (ws.map rowOf))]

/-- A `WordRec` with the transient session keys removed — what a saved
record looks like after being loaded back. -/
def cleanState (w : WordRec) : WordRec :=
  { w with is_new := none, learn_date := none }

/-- The six persisted fields of a record (a LearningState proper). -/
def projSix (w : WordRec) : JVal × JVal × ℚ × ℤ × ℚ × ℤ :=
  (w.word, w.translation, w.ef, w.n, w.interval, w.last_review)

/-- `MemoryAlgorithm.initial_ef`. -/
def initial_ef : ℚ := 2.5

/-- `MemoryAlgorithm.initial_interval`: `[1, 6][min(n, 1)]` with Python
list indexing (index 1 or (wrapping) -1 selects 6, index 0 or -2 selects
1; indices below -2 would raise, but the program only calls this with 0
and 1). -/
def initial_interval (n : ℤ) : ℚ :=
  if min n 1 = 1 ∨ min n 1 = -1 then 6 else 1

/-- `MemoryAlgorithm.next_interval`. -/
def next_interval (prev_interval ef : ℚ) : ℚ :=
  prev_interval * ef

/-- `MemoryAlgorithm.update_ef`:
`ef += 0.1 - (5 - q) * (0.08 + (5 - q) * 0.02); return max(ef, 1.3)`. -/
def update_ef (ef : ℚ) (q : ℤ) : ℚ :=
  max (ef + (0.1 - (5 - (q : ℚ)) * (0.08 + (5 - (q : ℚ)) * 0.02))) 1.3

/-- `MemoryAlgorithm.review_weight`:
`elapsed = (now - w["last_review"]) / (86400 * 1000)`, weight
`elapsed / w["interval"]` if the interval is positive else `1.0`. -/
def review_weight (w : WordRec) (now : ℤ) : ℚ :=
  let elapsed := ((now - w.last_review : ℤ) : ℚ) / (86400 * 1000)
  if w.interval > 0 then elapsed / w.interval else 1.0

/-- Running sums, as `itertools.accumulate` inside `random.choices`. -/
def cumsumFrom (acc : ℚ) : List ℚ → List ℚ
  | [] => []
  | w :: ws => (acc + w) :: cumsumFrom (acc + w) ws

/-- `cum_weights = list(_accumulate(weights))`. -/
def cumsum (ws : List ℚ) : List ℚ :=
  cumsumFrom 0 ws

/-- `bisect.bisect_right(a, x, lo, hi)` exactly as CPython's loop:
`while lo < hi: mid = (lo+hi)//2; if x < a[mid]: hi = mid else lo = mid+1`.
The loop halves the range, so `a.length + 1` fuel always suffices. -/
def bisectAux (a : List ℚ) (x : ℚ) : ℕ → ℕ → ℕ → ℕ
  | 0, lo, _ => lo
  | fuel + 1, lo, hi =>
    if lo < hi then
      let mid := (lo + hi) / 2
      if x < a.getD mid 0 then bisectAux a x fuel lo mid
      else bisectAux a x fuel (mid + 1) hi
    else lo

/-- `random.choices(range(n), weights=weights)[0]` with `r` the value of
`random.random()`: `none` models the `ValueError` CPython raises when
the total of the weights is not greater than zero (or the `IndexError`
of `cum_weights[-1]` on an empty list); otherwise the index found by
`bisect_right(cum_weights, r * total, 0, n - 1)`. -/
def weightedChoice (weights : List ℚ) (r : ℚ) : Option ℕ :=
  match (cumsum weights).getLast? with
  | none => none
  | some total =>
    if total ≤ 0 then none
    else some (bisectAux (cumsum weights) (r * total) (weights.length + 1) 0 (weights.length - 1))

/-- The mutable fields of `VocabularyApp` that `get_word` and `answer`
read or write (`self.words`, `self.all_words`, `self.today`,
`self.today_count`, `self.limit`, `self.review_only`, `self.idx`). -/
structure AppState where
  words : List WordRec
  allWords : List Entry
  today : String
  today_count : ℤ
  limit : ℤ
  review_only : Bool
  idx : ℕ

/-- The day-rollover prologue of `get_word` (also performed by
`__init__`): if the stored date differs from today's date, reset the
daily counter to 0 and store today's date. -/
def rollover (st : AppState) (todayNow : String) : AppState :=
  if st.today ≠ todayNow then { st with today := todayNow, today_count := 0 } else st

/-- The two error dicts `get_word` can return. -/
inductive GWErr where
  | noLearnedWords
  | noWords

/-- Result of `get_word`: the provisional-new-word dict (with its
`temp_new_word` payload), a review word (`self.words[self.idx]`), or an
error dict. -/
inductive GWResult where
  | newWord (word translation : String) (temp_new_word : WordRec)
  | review (w : WordRec)
  | err (e : GWErr)

/-- Placeholder for a `List.getD` call whose index is in range. -/
def defaultEntry : Entry := ⟨"", "", false⟩

/-- Placeholder for a `List.getD` call whose index is in range. -/
def defaultWordRec : WordRec := ⟨.null, .null, 0, 0, 0, 0, none, none⟩

/-- The review tail of `get_word` (lines after the new-word branch):
a weighted draw over `self.words` when non-empty, else the error dicts.
`none` propagates the uncaught `ValueError` of `random.choices`. -/
def get_word_review (st : AppState) (now : ℤ) (rW : ℚ) : Option (GWResult × AppState) :=
  if !st.words.isEmpty then
    let weights := st.words.map (fun w => review_weight w now)
    match weightedChoice weights rW with
    | none => none
    | some i => some (.review (st.words.getD i defaultWordRec), { st with idx := i })
  else if !st.allWords.isEmpty then some (.err .noLearnedWords, st)
  else some (.err .noWords, st)

/-- `VocabularyApp.get_word`. `todayNow` is `str(date.today())`, `now`
is `int(time.time() * 1000)`, `rN` drives `random.choice` over the
unlearned entries (CPython picks a uniform index; we model it as
`rN % len(unlearned)`), and `rW` is the `random.random()` draw inside
`random.choices`. -/
def get_word (st : AppState) (todayNow : String) (now : ℤ) (rN : ℕ) (rW : ℚ) :
    Option (GWResult × AppState) :=
  let st1 := rollover st todayNow
  if st1.review_only = false ∧ st1.today_count < st1.limit then
    let unlearned := st1.allWords.filter (fun e => !e.is_learned)
    if !unlearned.isEmpty then
      let w := unlearned.getD (rN % unlearned.length) defaultEntry
      let nw : WordRec :=
        { word := .str w.word, translation := .str w.translation,
          ef := initial_ef, n := 0, interval := 1, last_review := now,
          is_new := some true, learn_date := some todayNow }
      some (.newWord w.word w.translation nw, st1)
    else get_word_review st1 now rW
  else get_word_review st1 now rW

/-- `VocabularyApp.answer` on the active word (`self.words[self.idx]`):
failed recall resets the repetition count and interval, successful
recall bumps the count, updates the ease factor and grows the interval;
both paths stamp `last_review` and pop the `is_new` key. -/
def answer (w : WordRec) (q : ℤ) (now : ℤ) : WordRec :=
  if q < 3 then
    { w with n := 0, interval := initial_interval 0, last_review := now, is_new := none }
  else
    let n' := w.n + 1
    let ef' := update_ef w.ef q
    let interval' := if n' = 1 then initial_interval 1 else next_interval w.interval ef'
    { w with n := n', ef := ef', interval := interval', last_review := now, is_new := none }

/-! ## Helper lemmas -/

/-- The day rollover touches only `today` and `today_count`. -/
theorem rollover_words (st : AppState) (d : String) : (rollover st d).words = st.words := by
  unfold rollover; split <;> rfl

/-- The day rollover touches only `today` and `today_count`. -/
theorem rollover_allWords (st : AppState) (d : String) :
    (rollover st d).allWords = st.allWords := by
  unfold rollover; split <;> rfl

/-- The day rollover touches only `today` and `today_count`. -/
theorem rollover_review_only (st : AppState) (d : String) :
    (rollover st d).review_only = st.review_only := by
  unfold rollover; split <;> rfl

/-- The day rollover touches only `today` and `today_count`. -/
theorem rollover_limit (st : AppState) (d : String) : (rollover st d).limit = st.limit := by
  unfold rollover; split <;> rfl

/-- When the new-word branch's guard fails, `get_word` runs the review tail
on the rolled-over state. -/
theorem get_word_no_new (st : AppState) (d : String) (now : ℤ) (rN : ℕ) (rW : ℚ)
    (h : ¬((rollover st d).review_only = false ∧
        (rollover st d).today_count < (rollover st d).limit)) :
    get_word st d now rN rW = get_word_review (rollover st d) now rW := by
  unfold get_word
  rw [if_neg h]

/-- If `random.choices` raises on the computed weights, the review tail
propagates the exception. -/
theorem get_word_review_crash (st : AppState) (now : ℤ) (rW : ℚ)
    (hne : st.words.isEmpty = false)
    (h : weightedChoice (st.words.map (fun w => review_weight w now)) rW = none) :
    get_word_review st now rW = none := by
  unfold get_word_review
  simp only [hne, Bool.not_false, if_true]
  rw [h]

/-- An entry of `_load_all`'s output whose learned flag is false has a word
that matches no learned record's `word` value. -/
theorem word_not_in_of_loadAll (raw : List String) (ws : List WordRec) (e : Entry)
    (he : e ∈ loadAll raw ws) (hl : e.is_learned = false) :
    ∀ w ∈ ws, w.word ≠ JVal.str e.word := by
  unfold loadAll at he
  obtain ⟨a, _, rfl⟩ := List.mem_map.mp he
  intro w hw contra
  simp only at hl
  have := List.any_eq_false.mp hl w hw
  rw [contra] at this
  simp at this

/-- Parsing the rows written by `save_wordlist` succeeds and returns the
records with the transient session keys cleared. -/
theorem parseLearned_saveArtifact (ws : List WordRec) :
    parseLearned (saveArtifact ws) = some (ws.map cleanState) := by
  show parseRows (ws.map rowOf) = _
  induction ws with
  | nil => rfl
  | cons w t ih => simp [parseRows, ih]; rfl

/-! ## Claims -/

/-- Claim C1 (code_bug): the spec requires the review-branch weighted draw
not to crash when every computed overdue weight is zero, falling back to a
uniform draw that still returns some learned item. The code has no such
fallback: `random.choices` raises `ValueError` when the total of the
weights is not greater than zero, and `get_word` does not catch it
(modelled by `none`). Failing input: two learned words with positive
intervals whose `last_review` equals `now`, so both weights are `0`. -/
theorem get_word_zero_weights_crash :
    weightedChoice [0, 0] 0 = none ∧
    get_word
      ⟨[⟨.str "a", .str "b", 2.5, 0, 1, 0, none, none⟩,
        ⟨.str "c", .str "d", 2.5, 0, 1, 0, none, none⟩],
       [], "d", 0, 0, false, 0⟩ "d" 0 0 0 = none := by
  have hwc : weightedChoice [0, 0] 0 = none := by
    norm_num [weightedChoice, cumsum, cumsumFrom]
  have hro : rollover
      ⟨[⟨.str "a", .str "b", 2.5, 0, 1, 0, none, none⟩,
        ⟨.str "c", .str "d", 2.5, 0, 1, 0, none, none⟩],
       [], "d", 0, 0, false, 0⟩ "d" =
      ⟨[⟨.str "a", .str "b", 2.5, 0, 1, 0, none, none⟩,
        ⟨.str "c", .str "d", 2.5, 0, 1, 0, none, none⟩],
       [], "d", 0, 0, false, 0⟩ := by
    unfold rollover
    simp
  refine ⟨hwc, ?_⟩
  rw [get_word_no_new _ _ _ _ _ (by rw [hro]; norm_num)]
  rw [hro]
  apply get_word_review_crash
  · rfl
  · have hmap :
        ([⟨.str "a", .str "b", 2.5, 0, 1, 0, none, none⟩,
          ⟨.str "c", .str "d", 2.5, 0, 1, 0, none, none⟩] : List WordRec).map
          (fun w => review_weight w 0) = [0, 0] := by
      simp only [List.map_cons, List.map_nil]
      norm_num [review_weight]
    rw [hmap]
    exact hwc

/-- Claim C2 (counterexample): the claim says `totalCount` equals the number
of entries of `allEntries` (the lines with exactly two fields). On the file
with lines `a b` and `c`, load's `totalCount` is 2 but `allEntries` has one
entry, because `load_wordlist` counts every non-empty line while only
`_load_all` filters by field count. -/
theorem totalCount_vs_allEntries_counterexample :
    (load_wordlist ["a b", "c"] .absent).2 = 2 ∧
    (allEntriesOf ["a b", "c"]).length = 1 ∧
    (load_wordlist ["a b", "c"] .absent).2 ≠ (allEntriesOf ["a b", "c"]).length :=
  ⟨rfl, rfl, by decide⟩

/-- Claim C2 (amended): `totalCount` returned by load equals the number of
non-empty (stripped) lines of the word-list file; `allEntries` keeps only
the lines splitting into exactly two fields, so its size is at most
`totalCount`. -/
theorem totalCount_counts_nonempty_lines (raw : List String) (cache : CacheFile) :
    (load_wordlist raw cache).2 = (wordlistLines raw).length ∧
    (allEntriesOf raw).length ≤ (load_wordlist raw cache).2 := by
  refine ⟨?_, ?_⟩
  · cases cache <;> rfl
  · have h2 : (load_wordlist raw cache).2 = (wordlistLines raw).length := by
      cases cache <;> rfl
    rw [h2]
    exact List.length_filterMap_le _ _

/-- Claim C3: for every learning state and quality `0 ≤ q < 3`, `answer`
yields `repetitionCount = 0` and `intervalDays = 1`, and leaves the ease
factor unchanged, regardless of the prior state. -/
theorem answer_failed_recall_resets (w : WordRec) (q now : ℤ) (h0 : 0 ≤ q) (h3 : q < 3) :
    (answer w q now).n = 0 ∧ (answer w q now).interval = 1 ∧ (answer w q now).ef = w.ef := by
  unfold answer
  rw [if_pos h3]
  refine ⟨rfl, ?_, rfl⟩
  norm_num [initial_interval]

/-- Claim C3 witness: the theorem applied to a concrete state (`ef = 2`,
`n = 3`, `interval = 7`) and quality 1. -/
theorem answer_failed_recall_resets_witness :
    ((0 : ℤ) ≤ 1 ∧ (1 : ℤ) < 3) ∧
    ((answer ⟨.str "a", .str "b", 2, 3, 7, 0, none, none⟩ 1 5).n = 0 ∧
     (answer ⟨.str "a", .str "b", 2, 3, 7, 0, none, none⟩ 1 5).interval = 1 ∧
     (answer ⟨.str "a", .str "b", 2, 3, 7, 0, none, none⟩ 1 5).ef = 2) :=
  ⟨⟨by decide, by decide⟩, answer_failed_recall_resets _ 1 5 (by decide) (by decide)⟩

/-- Claim C4: for every `ef ≥ 1.3` and quality `q ∈ [0,5]`,
`update_ef ef q = max (ef + 0.1 - (5-q)*(0.08+(5-q)*0.02)) 1.3`, the result
is at least 1.3, and for `ef = 2.5`: quality 5 gives 2.6, quality 4 gives
2.5, quality 3 gives 2.36. -/
theorem update_ef_formula_and_floor (ef : ℚ) (q : ℤ) (h : (1.3 : ℚ) ≤ ef)
    (h0 : 0 ≤ q) (h5 : q ≤ 5) :
    update_ef ef q = max (ef + 0.1 - (5 - (q : ℚ)) * (0.08 + (5 - (q : ℚ)) * 0.02)) 1.3 ∧
    (1.3 : ℚ) ≤ update_ef ef q ∧
    update_ef 2.5 5 = 2.6 ∧ update_ef 2.5 4 = 2.5 ∧ update_ef 2.5 3 = 2.36 := by
  refine ⟨?_, le_max_right _ _, ?_, ?_, ?_⟩
  · unfold update_ef
    rw [add_sub]
  all_goals norm_num [update_ef]

/-- Claim C4 witness: the theorem applied at `ef = 2.5`, `q = 4`. -/
theorem update_ef_formula_and_floor_witness :
    ((1.3 : ℚ) ≤ 2.5 ∧ (0 : ℤ) ≤ 4 ∧ (4 : ℤ) ≤ 5) ∧
    (update_ef 2.5 4 =
        max (2.5 + 0.1 - (5 - ((4 : ℤ) : ℚ)) * (0.08 + (5 - ((4 : ℤ) : ℚ)) * 0.02)) 1.3 ∧
      (1.3 : ℚ) ≤ update_ef 2.5 4 ∧
      update_ef 2.5 5 = 2.6 ∧ update_ef 2.5 4 = 2.5 ∧ update_ef 2.5 3 = 2.36) :=
  ⟨⟨by norm_num, by decide, by decide⟩,
   update_ef_formula_and_floor 2.5 4 (by norm_num) (by decide) (by decide)⟩

/-- Claim C5: on a next-item query whose stored date differs from today's
date, the daily counter is reset to 0 and the stored date set to today
before the `count < limit` test, so the query behaves exactly as it would
from a state whose counter is 0 and whose date is today. -/
theorem get_word_quota_rollover (st : AppState) (d : String) (now : ℤ) (rN : ℕ) (rW : ℚ)
    (h : st.today ≠ d) :
    rollover st d = { st with today := d, today_count := 0 } ∧
    get_word st d now rN rW = get_word { st with today := d, today_count := 0 } d now rN rW := by
  have h1 : rollover st d = { st with today := d, today_count := 0 } := by
    unfold rollover; rw [if_pos h]
  have h2 : rollover { st with today := d, today_count := 0 } d =
      { st with today := d, today_count := 0 } := by
    unfold rollover; simp
  refine ⟨h1, ?_⟩
  unfold get_word
  rw [h1, h2]

/-- Claim C5 witness: the theorem applied to a state whose stored date is
stale and whose stale counter is 5. -/
theorem get_word_quota_rollover_witness :
    (("2026-10-11" : String) ≠ "2026-10-12") ∧
    (rollover ⟨[], [], "2026-10-11", 5, 0, false, 0⟩ "2026-10-12" =
      ⟨[], [], "2026-10-12", 0, 0, false, 0⟩ ∧
     get_word ⟨[], [], "2026-10-11", 5, 0, false, 0⟩ "2026-10-12" 0 0 0 =
      get_word ⟨[], [], "2026-10-12", 0, 0, false, 0⟩ "2026-10-12" 0 0 0) :=
  ⟨by decide,
   get_word_quota_rollover ⟨[], [], "2026-10-11", 5, 0, false, 0⟩ "2026-10-12" 0 0 0 (by decide)⟩

/-- Claim C6: when review-only mode is off, the (rolled-over) quota allows
a new item, and unlearned entries exist, `get_word` returns one of the
unlearned entries (for any value of the random draw) as a provisional new
item with `ef = 2.5`, `n = 0`, `interval = 1`, `last_review = now`, tagged
`is_new = true` (plus the session-only `learn_date`); the chosen entry's
word is not among the learned records' words, and the returned state's
`words` list is unchanged — commitment happens only on confirmation. -/
theorem get_word_new_item_provisional (st : AppState) (raw : List String) (d : String)
    (now : ℤ) (rN : ℕ) (rW : ℚ)
    (hA : st.allWords = loadAll raw st.words)
    (hR : st.review_only = false)
    (hQ : (rollover st d).today_count < st.limit)
    (hU : st.allWords.filter (fun e => !e.is_learned) ≠ []) :
    get_word st d now rN rW =
      some (.newWord
        ((st.allWords.filter (fun e => !e.is_learned)).getD
          (rN % (st.allWords.filter (fun e => !e.is_learned)).length) defaultEntry).word
        ((st.allWords.filter (fun e => !e.is_learned)).getD
          (rN % (st.allWords.filter (fun e => !e.is_learned)).length) defaultEntry).translation
        { word := .str ((st.allWords.filter (fun e => !e.is_learned)).getD
            (rN % (st.allWords.filter (fun e => !e.is_learned)).length) defaultEntry).word,
          translation := .str ((st.allWords.filter (fun e => !e.is_learned)).getD
            (rN % (st.allWords.filter (fun e => !e.is_learned)).length) defaultEntry).translation,
          ef := 2.5, n := 0, interval := 1, last_review := now,
          is_new := some true, learn_date := some d },
        rollover st d) ∧
    (st.allWords.filter (fun e => !e.is_learned)).getD
        (rN % (st.allWords.filter (fun e => !e.is_learned)).length) defaultEntry ∈
      st.allWords.filter (fun e => !e.is_learned) ∧
    (∀ w ∈ st.words, w.word ≠ JVal.str
      ((st.allWords.filter (fun e => !e.is_learned)).getD
        (rN % (st.allWords.filter (fun e => !e.is_learned)).length) defaultEntry).word) ∧
    (rollover st d).words = st.words := by
  have hmem : (st.allWords.filter (fun e => !e.is_learned)).getD
      (rN % (st.allWords.filter (fun e => !e.is_learned)).length) defaultEntry ∈
      st.allWords.filter (fun e => !e.is_learned) := by
    have hlen : 0 < (st.allWords.filter (fun e => !e.is_learned)).length :=
      List.length_pos.mpr hU
    have hk : rN % (st.allWords.filter (fun e => !e.is_learned)).length <
        (st.allWords.filter (fun e => !e.is_learned)).length := Nat.mod_lt _ hlen
    rw [List.getD_eq_getElem?_getD, List.getElem?_eq_getElem hk]
    exact List.getElem_mem hk
  have hmem' := hmem
  rw [List.mem_filter] at hmem'
  obtain ⟨hmemAll, hnl⟩ := hmem'
  have hlf : ((st.allWords.filter (fun e => !e.is_learned)).getD
      (rN % (st.allWords.filter (fun e => !e.is_learned)).length) defaultEntry).is_learned
      = false := by
    cases hE : ((st.allWords.filter (fun e => !e.is_learned)).getD
        (rN % (st.allWords.filter (fun e => !e.is_learned)).length) defaultEntry).is_learned
    · rfl
    · rw [hE] at hnl; simp at hnl
  refine ⟨?_, hmem,
    word_not_in_of_loadAll raw st.words _ (by rw [← hA]; exact hmemAll) hlf,
    rollover_words st d⟩
  unfold get_word
  rw [if_pos ⟨by rw [rollover_review_only]; exact hR, by rw [rollover_limit]; exact hQ⟩]
  rw [rollover_allWords]
  have hne : (st.allWords.filter (fun e => !e.is_learned)).isEmpty = false := by
    cases hE : st.allWords.filter (fun e => !e.is_learned) with
    | nil => exact absurd hE hU
    | cons a l => rfl
  simp only [hne, Bool.not_false, if_true]
  rfl

/-- Claim C6 witness: the theorem applied to a state with one unlearned
entry and an empty learned list. -/
theorem get_word_new_item_provisional_witness :
    (([⟨"a", "b", false⟩] : List Entry) = loadAll ["a b"] [] ∧
     false = false ∧
     (rollover ⟨[], [⟨"a", "b", false⟩], "d", 0, 1, false, 0⟩ "d").today_count < 1 ∧
     ([⟨"a", "b", false⟩] : List Entry).filter (fun e => !e.is_learned) ≠ []) ∧
    (get_word ⟨[], [⟨"a", "b", false⟩], "d", 0, 1, false, 0⟩ "d" 5 0 0 =
      some (.newWord "a" "b" ⟨.str "a", .str "b", 2.5, 0, 1, 5, some true, some "d"⟩,
        ⟨[], [⟨"a", "b", false⟩], "d", 0, 1, false, 0⟩) ∧
     (⟨"a", "b", false⟩ : Entry) ∈ ([⟨"a", "b", false⟩] : List Entry).filter
        (fun e => !e.is_learned) ∧
     (∀ w ∈ ([] : List WordRec), w.word ≠ JVal.str "a") ∧
     (rollover ⟨[], [⟨"a", "b", false⟩], "d", 0, 1, false, 0⟩ "d").words = []) :=
  ⟨⟨rfl, rfl, by decide, by decide⟩,
   get_word_new_item_provisional ⟨[], [⟨"a", "b", false⟩], "d", 0, 1, false, 0⟩ ["a b"] "d" 5 0 0
     rfl rfl (by decide) (by decide)⟩

/-- Claim C7 (counterexample): the claim quantifies over every learning
state with `ef ≥ 1.0`; it fails on the state with `n = 0` and
`interval = 10`: quality 5 is a first success, so the interval is set to
`initial_interval 1 = 6 < 10`. -/
theorem interval_monotone_counterexample :
    (1 : ℚ) ≤ (⟨.str "a", .str "b", 2.5, 0, 10, 0, none, none⟩ : WordRec).ef ∧
    (3 : ℤ) ≤ 5 ∧ (5 : ℤ) ≤ 5 ∧
    (answer ⟨.str "a", .str "b", 2.5, 0, 10, 0, none, none⟩ 5 0).interval <
      (⟨.str "a", .str "b", 2.5, 0, 10, 0, none, none⟩ : WordRec).interval := by
  refine ⟨by norm_num, by decide, by decide, ?_⟩
  show (answer ⟨.str "a", .str "b", 2.5, 0, 10, 0, none, none⟩ 5 0).interval < 10
  unfold answer
  norm_num [initial_interval]

/-- Claim C7 (amended): for every learning state with `ef ≥ 1.0`,
non-negative interval, and interval at most 6 whenever the repetition
count is 0, every quality `3 ≤ q ≤ 5` yields an interval that is at least
the prior interval (first success sets it to 6, later successes multiply
it by the updated ease factor, which is at least 1.3). -/
theorem interval_monotone_amended (w : WordRec) (q now : ℤ) (hef : (1 : ℚ) ≤ w.ef)
    (hitv : 0 ≤ w.interval) (hn : w.n = 0 → w.interval ≤ 6) (hq3 : 3 ≤ q) (hq5 : q ≤ 5) :
    w.interval ≤ (answer w q now).interval := by
  unfold answer
  rw [if_neg (by omega : ¬q < 3)]
  by_cases hn1 : w.n + 1 = 1
  · have h0 : w.n = 0 := by omega
    simp only [hn1, if_pos rfl]
    have h6 : initial_interval 1 = 6 := by norm_num [initial_interval]
    simpa [h6] using hn h0
  · simp only [if_neg hn1, next_interval]
    have h13 : (1 : ℚ) ≤ update_ef w.ef q :=
      le_trans (by norm_num) (le_max_right _ _)
    exact le_mul_of_one_le_right hitv h13

/-- Claim C7 (amended) witness: the theorem applied to the state `ef = 2`,
`n = 1`, `interval = 3` with quality 5. -/
theorem interval_monotone_amended_witness :
    ((1 : ℚ) ≤ 2 ∧ (0 : ℚ) ≤ 3 ∧ ((1 : ℤ) = 0 → (3 : ℚ) ≤ 6) ∧ (3 : ℤ) ≤ 5 ∧ (5 : ℤ) ≤ 5) ∧
    (3 : ℚ) ≤ (answer ⟨.str "a", .str "b", 2, 1, 3, 0, none, none⟩ 5 9).interval :=
  ⟨⟨by norm_num, by norm_num, fun h => (one_ne_zero h).elim, by decide, by decide⟩,
   interval_monotone_amended ⟨.str "a", .str "b", 2, 1, 3, 0, none, none⟩ 5 9 (by norm_num)
     (by norm_num) (fun h => (one_ne_zero h).elim) (by decide) (by decide)⟩

/-- Claim C8: for every list of learning states, saving and then loading
reproduces every record exactly — same words, translations, ease factors,
repetition counts, interval days and last-review timestamps, in the same
order (the model's rationals are exact, matching Python's exact JSON float
round trip); only the transient session keys are cleared, which are not
part of a LearningState. -/
theorem save_load_roundtrip (ws : List WordRec) :
    parseLearned (saveArtifact ws) = some (ws.map cleanState) ∧
    (ws.map cleanState).map projSix = ws.map projSix := by
  constructor
  · exact parseLearned_saveArtifact ws
  · have hfe : projSix ∘ cleanState = projSix := funext (fun w => rfl)
    rw [List.map_map, hfe]

/-- Claim C9: whenever the cache artifact is absent, is invalid JSON, or
parses to a value on which the loading code raises (malformed structure,
wrong field count, inconvertible field types), `load_wordlist` returns the
empty learned list together with the totalCount read from the raw
word-list file, and no error reaches the caller. -/
theorem load_cache_failure_fallback (raw : List String) (cache : CacheFile)
    (h : cacheFails cache) :
    load_wordlist raw cache = ([], load_total raw) := by
  cases cache with
  | absent => rfl
  | invalid => rfl
  | parsed v =>
    have h' : parseLearned v = none := h
    show ((parseLearned v).getD [], load_total raw) = ([], load_total raw)
    rw [h']
    rfl

/-- Claim C9 witness: the theorem applied to a cache whose row has a
non-numeric ease-factor field (so `float(w[2])` raises). -/
theorem load_cache_failure_fallback_witness :
    cacheFails (.parsed (.obj [("WORDLIST",
      .arr [.arr [.str "a", .str "b", .str "x", .int 0, .num 1, .int 0]])])) ∧
    load_wordlist ["a b"] (.parsed (.obj [("WORDLIST",
      .arr [.arr [.str "a", .str "b", .str "x", .int 0, .num 1, .int 0]])])) =
      ([], load_total ["a b"]) :=
  ⟨rfl, load_cache_failure_fallback _ _ rfl⟩

/-- Claim C10: `save_wordlist` writes exactly the six persisted fields per
item: the artifact is unchanged if the transient session keys (`is_new`,
`learn_date`) are cleared first, each row is exactly the six-element
array of persisted fields, and loading the artifact back yields records
in which both transient keys are absent. -/
theorem save_persists_exactly_six_fields (ws : List WordRec) :
    saveArtifact ws = saveArtifact (ws.map cleanState) ∧
    ws.map rowOf = ws.map (fun w =>
      JVal.arr [w.word, w.translation, .num w.ef, .int w.n, .num w.interval, .int w.last_review]) ∧
    (parseLearned (saveArtifact ws)).map (List.map (fun w => (w.is_new, w.learn_date))) =
      some (ws.map (fun _ => ((none : Option Bool), (none : Option String)))) := by
  refine ⟨?_, rfl, ?_⟩
  · unfold saveArtifact
    rw [List.map_map]
    rfl
  · rw [parseLearned_saveArtifact]
    show some ((ws.map cleanState).map (fun w => (w.is_new, w.learn_date))) =
      some (ws.map (fun _ => ((none : Option Bool), (none : Option String))))
    rw [List.map_map]
    have hfe : ((fun w : WordRec => (w.is_new, w.learn_date)) ∘ cleanState) =
        (fun _ : WordRec => ((none : Option Bool), (none : Option String))) :=
      funext (fun w => rfl)
    rw [hfe]
